import Mathlib

/-!
Verification of the lambda event processor (`src/handler.py`).

The file shallowly embeds the Python module into Lean:

* Python scalar values that can occur in an event field are modelled by
  `PyVal` (`None`, `int`, `float`, `str`).  Floats are modelled as exact
  decimal numbers `Dec` (an integer mantissa over a power of ten);
  `round(x, 3)` becomes round-half-to-even on decimals, and rendering of a
  float in an f-string becomes exact decimal printing.  This identifies a
  float with its intended decimal value, which is exact on every input
  appearing in the specification's laws.
* A Python dict event is an association list `List (String × PyVal)`;
  `event.get(k)` is `getField` (absent keys give `PyVal.none`, exactly like
  `dict.get`), and `k in event` is `(lookupField fs k).isSome`.
* The entry point's argument is `PyEvent`: either a dict (`obj`) or any
  non-dict value (`other`), matching the `isinstance(event, dict)` check.
* String case operations model `str.lower` / `str.upper` / `str.strip`
  on their ASCII behaviour, and `re.match(r"^[^@\s]+@[^@\s]+\.[^@\s]+$", s)`
  is modelled by `_is_email`, including the Python semantics of `$`, which
  also matches just before a single trailing newline.
-/

namespace Handler

/-- The character class `\s` of a Python `str` regex, restricted to the
ASCII whitespace characters (space, tab, newline, CR, vertical tab, form feed). -/
def pyWs (ch : Char) : Bool :=
  ch = ' ' || ch = '\t' || ch = '\n' || ch = '\r' || ch = '\x0b' || ch = '\x0c'

/-- A character matched by `[^@\s]` in the email regex. -/
def emailChar (ch : Char) : Bool :=
  !(ch = '@') && !(pyWs ch)

/-- Predicate used to scan up to the first `'@'`. -/
def notAt (ch : Char) : Bool := !(ch == '@')

/-- `cs` has a `'.'` that is neither its first nor its last character
(so the part after `'@'` splits as `b ++ '.' :: c` with `b, c` nonempty). -/
def hasInnerDot (cs : List Char) : Bool :=
  decide ('.' ∈ cs.tail.dropLast)

/-- Anchored match of `^[^@\s]+@[^@\s]+\.[^@\s]+$` against the whole character
list (the `$`-before-newline allowance is handled in `_is_email`). -/
def matchEmailCore (cs : List Char) : Bool :=
  match cs.dropWhile notAt with
  | _ :: dom =>
      decide (cs.takeWhile notAt ≠ []) && (cs.takeWhile notAt).all emailChar &&
        dom.all emailChar && hasInnerDot dom
  | [] => false

/-- `_is_email` from `src/handler.py`:
`bool(re.match(r"^[^@\s]+@[^@\s]+\.[^@\s]+$", value))`.
Without `re.MULTILINE`, Python's `$` matches at the end of the string or just
before a newline that is the last character, hence the second disjunct. -/
def _is_email (s : String) : Bool :=
  matchEmailCore s.data ||
    (decide (s.data.getLast? = some '\n') && matchEmailCore s.data.dropLast)

/-- `str.lower` (ASCII behaviour). -/
def pyLower (s : String) : String := String.mk (s.data.map Char.toLower)

/-- `str.upper` (ASCII behaviour). -/
def pyUpper (s : String) : String := String.mk (s.data.map Char.toUpper)

/-- `str.strip()`: remove leading and trailing whitespace. -/
def pyStrip (s : String) : String :=
  String.mk (((s.data.dropWhile pyWs).reverse.dropWhile pyWs).reverse)

/-- Code-point comparison of character lists, as Python compares `str`. -/
def charListLt : List Char → List Char → Bool
  | [], [] => false
  | [], _ :: _ => true
  | _ :: _, [] => false
  | a :: as, b :: bs =>
      if a.toNat < b.toNat then true
      else if b.toNat < a.toNat then false
      else charListLt as bs

/-- Insert a string into a sorted list (for Python's `sorted`). -/
def insertSorted (s : String) : List String → List String
  | [] => [s]
  | t :: ts => if charListLt s.data t.data then s :: t :: ts else t :: insertSorted s ts

/-- Python's `sorted` on a list of strings (insertion sort; code-point order). -/
def sortStrings (l : List String) : List String := l.foldr insertSorted []

/-- `", ".join(...)`. -/
def joinComma : List String → String
  | [] => ""
  | [s] => s
  | s :: t :: ts => s ++ (", " ++ joinComma (t :: ts))

/-- `', '.join(sorted(l))`, the way every "Allowed: ..." message is built. -/
def sortedJoin (l : List String) : String := joinComma (sortStrings l)

/-- An exact decimal number `m / 10 ^ e`, the model of a Python float value.
Values produced by the embedding are canonical: `e = 0`, or `m` is not a
multiple of ten. -/
structure Dec where
  m : Int
  e : Nat
deriving DecidableEq

/-- Canonicalize `m / 10 ^ e` by stripping factors of ten. -/
def normDec : Int → Nat → Dec
  | m, 0 => ⟨m, 0⟩
  | m, e + 1 => if m % 10 = 0 then normDec (m / 10) e else ⟨m, e + 1⟩

/-- The float with the value of an integer (`float(n)` for exact decimals). -/
def Dec.ofInt (n : Int) : Dec := ⟨n, 0⟩

/-- Exact product of two decimals. -/
def Dec.mul (a b : Dec) : Dec := normDec (a.m * b.m) (a.e + b.e)

/-- Exact difference of two decimals. -/
def Dec.sub (a b : Dec) : Dec :=
  let e := max a.e b.e
  normDec (a.m * ((10 ^ (e - a.e) : Nat) : Int) - b.m * ((10 ^ (e - b.e) : Nat) : Int)) e

/-- Round `m / d` (with `d > 0`) to the nearest integer, ties to even: the
rounding mode of Python's builtin `round`. -/
def roundHalfEvenInt (m d : Int) : Int :=
  let fl := Int.fdiv m d
  let r := m - fl * d
  if 2 * r < d then fl
  else if d < 2 * r then fl + 1
  else if fl % 2 = 0 then fl else fl + 1

/-- `round(x, 3)` on the decimal model of floats. -/
def pyRound3 (a : Dec) : Dec :=
  if a.e ≤ 3 then normDec (a.m * ((10 ^ (3 - a.e) : Nat) : Int)) 3
  else normDec (roundHalfEvenInt a.m ((10 ^ (a.e - 3) : Nat) : Int)) 3

/-- A natural number printed in decimal, left-padded with zeros to width `w`. -/
def natPadLeft (n w : Nat) : String :=
  let s := toString n
  String.mk (List.replicate (w - s.data.length) '0') ++ s

/-- `str(x)` for a float value, on the decimal model (exact printing of a
canonical decimal, e.g. `"100.0"`, `"-0.5"`, `"2.675"`). -/
def floatRepr (a : Dec) : String :=
  (if a.m < 0 then "-" else "") ++
    (toString (a.m.natAbs / 10 ^ a.e) ++
      ("." ++ (if a.e = 0 then "0" else natPadLeft (a.m.natAbs % 10 ^ a.e) a.e)))

/-- A Python scalar value that can sit in an event field. -/
inductive PyVal where
  | none
  | int (n : Int)
  | float (d : Dec)
  | str (s : String)
deriving DecidableEq

/-- `str(v)`, as used by an f-string placeholder. -/
def pyStr : PyVal → String
  | PyVal.none => "None"
  | PyVal.int n => toString n
  | PyVal.float d => floatRepr d
  | PyVal.str s => s

/-- `float(v)` for a value that `isinstance(v, (int, float))` accepts. -/
def numVal : PyVal → Option Dec
  | PyVal.int n => some (Dec.ofInt n)
  | PyVal.float d => some d
  | _ => Option.none

/-- The fields of a dict event. -/
abbrev EventObj := List (String × PyVal)

/-- First binding of `key`, if present (`key in event`). -/
def lookupField : EventObj → String → Option PyVal
  | [], _ => Option.none
  | (k, v) :: rest, key => if k = key then some v else lookupField rest key

/-- `event.get(key)`: the bound value, or `None` when the key is absent. -/
def getField (fs : EventObj) (key : String) : PyVal :=
  (lookupField fs key).getD PyVal.none

/-- The uniform result record (`status` / `message` / `data` / `errors`). -/
structure PyResult where
  status : String
  message : String
  data : Option EventObj
  errors : List String
deriving DecidableEq

/-- `_err(*msgs)` from `src/handler.py`. -/
def _err (msgs : List String) : PyResult :=
  { status := "error", message := "Event rejected", data := Option.none, errors := msgs }

/-- `_ok(message, data)` from `src/handler.py`. -/
def _ok (message : String) (data : EventObj) : PyResult :=
  { status := "ok", message := message, data := some data, errors := [] }

/-- `ALLOWED_TYPES` (the set literal, as a list in source order). -/
def ALLOWED_TYPES : List String := ["USER_SIGNUP", "PAYMENT", "FILE_UPLOAD"]

/-- `ALLOWED_PLANS`. -/
def ALLOWED_PLANS : List String := ["free", "pro", "edu"]

/-- `ALLOWED_CURRENCIES`. -/
def ALLOWED_CURRENCIES : List String := ["BHD", "USD", "EUR"]

/-- `event_type in ALLOWED_TYPES`: Python `in` on a set of strings is only
true for an equal string. -/
def isAllowedType : PyVal → Bool
  | PyVal.str s => decide (s ∈ ALLOWED_TYPES)
  | _ => false

/-- The `"Missing required field: '<name>'"` message. -/
def missingMsg (name : String) : String :=
  "Missing required field: '" ++ (name ++ "'")

/-- Signup `user_id` field checks (missing / wrong type). -/
def checkSignupUserId : PyVal → List String
  | PyVal.none => [missingMsg "user_id"]
  | PyVal.int _ => []
  | _ => ["'user_id' must be an integer"]

/-- Signup `email` field checks (missing / wrong type / format). -/
def checkSignupEmail : PyVal → List String
  | PyVal.none => [missingMsg "email"]
  | PyVal.str s => if _is_email s then [] else ["Invalid email format: '" ++ (s ++ "'")]
  | _ => ["'email' must be a string"]

/-- Signup `plan` field checks (missing / wrong type / allowed set). -/
def checkSignupPlan : PyVal → List String
  | PyVal.none => [missingMsg "plan"]
  | PyVal.str s =>
      if pyLower s ∈ ALLOWED_PLANS then []
      else ["Invalid plan: '" ++ (s ++ ("'. Allowed: " ++ sortedJoin ALLOWED_PLANS))]
  | _ => ["'plan' must be a string"]

/-- The error accumulator of `handle_user_signup`, in source order. -/
def signupErrors (fs : EventObj) : List String :=
  checkSignupUserId (getField fs "user_id") ++
    (checkSignupEmail (getField fs "email") ++ checkSignupPlan (getField fs "plan"))

/-- `handle_user_signup` from `src/handler.py`.  The default arm of the final
match is unreachable: an empty accumulator forces the field shapes. -/
def handle_user_signup (fs : EventObj) : PyResult :=
  let errors := signupErrors fs
  if errors = [] then
    match getField fs "user_id", getField fs "email", getField fs "plan" with
    | PyVal.int uid, PyVal.str em, PyVal.str pl =>
        let normalized_email := pyLower em
        let normalized_plan := pyLower pl
        _ok "Signup processed"
          [("user_id", PyVal.int uid),
           ("email", PyVal.str normalized_email),
           ("plan", PyVal.str normalized_plan),
           ("welcome_email_subject",
             PyVal.str ("Welcome to the " ++ (normalized_plan ++ " plan!")))]
    | _, _, _ => _err []
  else _err errors

/-- Payment `payment_id` field checks. -/
def checkPaymentPaymentId : PyVal → List String
  | PyVal.none => [missingMsg "payment_id"]
  | PyVal.str _ => []
  | _ => ["'payment_id' must be a string"]

/-- Payment `user_id` field checks. -/
def checkPaymentUserId : PyVal → List String
  | PyVal.none => [missingMsg "user_id"]
  | PyVal.int _ => []
  | _ => ["'user_id' must be an integer"]

/-- Payment `amount` field checks: `isinstance(amount, (int, float))`, then
`amount <= 0` with the value rendered as given. -/
def checkPaymentAmount : PyVal → List String
  | PyVal.none => [missingMsg "amount"]
  | PyVal.int n =>
      if n ≤ 0 then ["'amount' must be greater than 0, got " ++ pyStr (PyVal.int n)] else []
  | PyVal.float d =>
      if d.m ≤ 0 then ["'amount' must be greater than 0, got " ++ pyStr (PyVal.float d)] else []
  | PyVal.str _ => ["'amount' must be a number"]

/-- Payment `currency` field checks. -/
def checkPaymentCurrency : PyVal → List String
  | PyVal.none => [missingMsg "currency"]
  | PyVal.str s =>
      if pyUpper s ∈ ALLOWED_CURRENCIES then []
      else ["Invalid currency: '" ++ (s ++ ("'. Allowed: " ++ sortedJoin ALLOWED_CURRENCIES))]
  | _ => ["'currency' must be a string"]

/-- The error accumulator of `handle_payment`, in source order. -/
def paymentErrors (fs : EventObj) : List String :=
  checkPaymentPaymentId (getField fs "payment_id") ++
    (checkPaymentUserId (getField fs "user_id") ++
      (checkPaymentAmount (getField fs "amount") ++
        checkPaymentCurrency (getField fs "currency")))

/-- `handle_payment` from `src/handler.py` (`0.02` is the exact rational). -/
def handle_payment (fs : EventObj) : PyResult :=
  let errors := paymentErrors fs
  if errors = [] then
    match getField fs "payment_id", getField fs "user_id",
          numVal (getField fs "amount"), getField fs "currency" with
    | PyVal.str pid, PyVal.int uid, some amt, PyVal.str cur =>
        let normalized_amount := pyRound3 amt
        let normalized_currency := pyUpper cur
        let fee := pyRound3 (Dec.mul ⟨2, 2⟩ normalized_amount)
        let net_amount := pyRound3 (Dec.sub normalized_amount fee)
        _ok "Payment processed"
          [("payment_id", PyVal.str pid),
           ("user_id", PyVal.int uid),
           ("amount", PyVal.float normalized_amount),
           ("currency", PyVal.str normalized_currency),
           ("fee", PyVal.float fee),
           ("net_amount", PyVal.float net_amount)]
    | _, _, _, _ => _err []
  else _err errors

/-- Upload `file_name` field checks. -/
def checkUploadFileName : PyVal → List String
  | PyVal.none => [missingMsg "file_name"]
  | PyVal.str _ => []
  | _ => ["'file_name' must be a string"]

/-- Upload `size_bytes` field checks (missing / wrong type / negative). -/
def checkUploadSizeBytes : PyVal → List String
  | PyVal.none => [missingMsg "size_bytes"]
  | PyVal.int n => if n < 0 then ["'size_bytes' must be >= 0"] else []
  | _ => ["'size_bytes' must be an integer"]

/-- Upload `bucket` field checks. -/
def checkUploadBucket : PyVal → List String
  | PyVal.none => [missingMsg "bucket"]
  | PyVal.str _ => []
  | _ => ["'bucket' must be a string"]

/-- Upload `uploader` field checks (missing / wrong type / email format). -/
def checkUploadUploader : PyVal → List String
  | PyVal.none => [missingMsg "uploader"]
  | PyVal.str s => if _is_email s then [] else ["Invalid uploader email: '" ++ (s ++ "'")]
  | _ => ["'uploader' must be a string"]

/-- The error accumulator of `handle_file_upload`, in source order. -/
def uploadErrors (fs : EventObj) : List String :=
  checkUploadFileName (getField fs "file_name") ++
    (checkUploadSizeBytes (getField fs "size_bytes") ++
      (checkUploadBucket (getField fs "bucket") ++
        checkUploadUploader (getField fs "uploader")))

/-- The three-band storage bucket computed from `size_bytes`. -/
def storageClassOf (n : Int) : String :=
  if n < 1000000 then "STANDARD"
  else if n < 50000000 then "STANDARD_IA"
  else "GLACIER"

/-- `handle_file_upload` from `src/handler.py`. -/
def handle_file_upload (fs : EventObj) : PyResult :=
  let errors := uploadErrors fs
  if errors = [] then
    match getField fs "file_name", getField fs "size_bytes",
          getField fs "bucket", getField fs "uploader" with
    | PyVal.str fn, PyVal.int sz, PyVal.str bk, PyVal.str up =>
        _ok "Upload processed"
          [("file_name", PyVal.str (pyStrip fn)),
           ("size_bytes", PyVal.int sz),
           ("bucket", PyVal.str (pyLower bk)),
           ("uploader", PyVal.str (pyLower up)),
           ("storage_class", PyVal.str (storageClassOf sz))]
    | _, _, _, _ => _err []
  else _err errors

/-- The entry point's argument: a dict, or any non-dict value. -/
inductive PyEvent where
  | obj (fields : EventObj)
  | other (v : PyVal)

/-- `handler(event, context)` from `src/handler.py`.  The trailing `_err []`
arm mirrors the unreachable fall-through after the three dispatch branches. -/
def handler (event : PyEvent) (context : Option EventObj) : PyResult :=
  match event with
  | PyEvent.other _ => _err ["Event must be a JSON object (dict), not a list or other type"]
  | PyEvent.obj fs =>
      if (lookupField fs "type").isSome = false then
        _err ["Missing required field: 'type'"]
      else
        let event_type := getField fs "type"
        if isAllowedType event_type = false then
          _err ["Unknown event type: '" ++
            (pyStr event_type ++ ("'. Allowed: " ++ sortedJoin ALLOWED_TYPES))]
        else if event_type = PyVal.str "USER_SIGNUP" then handle_user_signup fs
        else if event_type = PyVal.str "PAYMENT" then handle_payment fs
        else if event_type = PyVal.str "FILE_UPLOAD" then handle_file_upload fs
        else _err []

/-- The email pattern exactly as the specification words it: a nonempty run of
non-whitespace non-`'@'` characters, a literal `'@'`, a nonempty such run, a
literal `'.'`, and a nonempty such run, anchored at both ends with nothing
before or after.  (Spec-side definition, to be compared with `_is_email`.) -/
def EmailPat (cs : List Char) : Prop :=
  ∃ a b c : List Char,
    a ≠ [] ∧ b ≠ [] ∧ c ≠ [] ∧
    (∀ ch ∈ a, emailChar ch = true) ∧
    (∀ ch ∈ b, emailChar ch = true) ∧
    (∀ ch ∈ c, emailChar ch = true) ∧
    cs = a ++ '@' :: (b ++ '.' :: c)

/-- Remove every binding of a key from an event (the event with the field
absent). -/
def eraseKey (k : String) : EventObj → EventObj
  | [] => []
  | (k', v) :: rest => if k' = k then eraseKey k rest else (k', v) :: eraseKey k rest

/-- A name for each of the three per-type handlers. -/
inductive HandlerTag where
  | signup
  | payment
  | upload

/-- The handler a tag names. -/
def runHandler : HandlerTag → EventObj → PyResult
  | HandlerTag.signup => handle_user_signup
  | HandlerTag.payment => handle_payment
  | HandlerTag.upload => handle_file_upload

/-- The required fields of each handler, in check order. -/
def requiredFields : HandlerTag → List String
  | HandlerTag.signup => ["user_id", "email", "plan"]
  | HandlerTag.payment => ["payment_id", "user_id", "amount", "currency"]
  | HandlerTag.upload => ["file_name", "size_bytes", "bucket", "uploader"]

/-- The wrong-type message each handler emits for each of its required fields
(empty for non-fields). -/
def wrongTypeMsg : HandlerTag → String → String
  | HandlerTag.signup, "user_id" => "'user_id' must be an integer"
  | HandlerTag.signup, "email" => "'email' must be a string"
  | HandlerTag.signup, "plan" => "'plan' must be a string"
  | HandlerTag.payment, "payment_id" => "'payment_id' must be a string"
  | HandlerTag.payment, "user_id" => "'user_id' must be an integer"
  | HandlerTag.payment, "amount" => "'amount' must be a number"
  | HandlerTag.payment, "currency" => "'currency' must be a string"
  | HandlerTag.upload, "file_name" => "'file_name' must be a string"
  | HandlerTag.upload, "size_bytes" => "'size_bytes' must be an integer"
  | HandlerTag.upload, "bucket" => "'bucket' must be a string"
  | HandlerTag.upload, "uploader" => "'uploader' must be a string"
  | _, _ => ""

/-- A concrete payment event with the field values of the spec's fee law. -/
def payFields : EventObj :=
  [("type", PyVal.str "PAYMENT"), ("payment_id", PyVal.str "p1"),
   ("user_id", PyVal.int 7), ("amount", PyVal.float (Dec.ofInt 100)),
   ("currency", PyVal.str "usd")]

/-- A concrete payment event with a given `amount` value. -/
def payBad (a : PyVal) : EventObj :=
  [("type", PyVal.str "PAYMENT"), ("amount", a)]

/-- A concrete valid upload event with a given size. -/
def uploadFields (sz : Int) : EventObj :=
  [("type", PyVal.str "FILE_UPLOAD"), ("file_name", PyVal.str "f.txt"),
   ("size_bytes", PyVal.int sz), ("bucket", PyVal.str "b"),
   ("uploader", PyVal.str "u@v.w")]

/-- A concrete well-formed upload event (used to instantiate theorems). -/
def okUploadEvent : PyEvent :=
  PyEvent.obj [("type", PyVal.str "FILE_UPLOAD"), ("file_name", PyVal.str "f.txt"),
    ("size_bytes", PyVal.int 1), ("bucket", PyVal.str "b"), ("uploader", PyVal.str "u@v.w")]

/-- Well-formedness of a `PyResult`: binary status, errors empty exactly on
`ok`, data populated exactly on `ok`. -/
def ResultWF (r : PyResult) : Prop :=
  (r.status = "ok" ∨ r.status = "error") ∧
  (r.status = "ok" → r.errors = [] ∧ ∃ d, r.data = some d ∧ d ≠ []) ∧
  (r.status = "error" → r.errors ≠ [] ∧ r.data = Option.none)

lemma wf_err {msgs : List String} (h : msgs ≠ []) : ResultWF (_err msgs) := by
  refine ⟨Or.inr rfl, fun hok => ?_, fun _ => ⟨h, rfl⟩⟩
  simp [_err] at hok

lemma wf_ok {msg : String} {d : EventObj} (h : d ≠ []) : ResultWF (_ok msg d) := by
  refine ⟨Or.inl rfl, fun _ => ⟨rfl, d, rfl, h⟩, fun herr => ?_⟩
  simp [_ok] at herr

lemma checkSignupUserId_eq_nil {v : PyVal} (h : checkSignupUserId v = []) :
    ∃ n, v = PyVal.int n := by
  cases v <;> simp_all [checkSignupUserId]

lemma checkSignupEmail_eq_nil {v : PyVal} (h : checkSignupEmail v = []) :
    ∃ s, v = PyVal.str s ∧ _is_email s = true := by
  cases v with
  | str s =>
      refine ⟨s, rfl, ?_⟩
      cases hE : _is_email s with
      | true => rfl
      | false => simp [checkSignupEmail, hE] at h
  | none => simp_all [checkSignupEmail]
  | int n => simp_all [checkSignupEmail]
  | float d => simp_all [checkSignupEmail]

lemma checkSignupPlan_eq_nil {v : PyVal} (h : checkSignupPlan v = []) :
    ∃ s, v = PyVal.str s ∧ pyLower s ∈ ALLOWED_PLANS := by
  cases v with
  | str s =>
      refine ⟨s, rfl, ?_⟩
      by_cases hP : pyLower s ∈ ALLOWED_PLANS
      · exact hP
      · simp [checkSignupPlan, hP] at h
  | none => simp_all [checkSignupPlan]
  | int n => simp_all [checkSignupPlan]
  | float d => simp_all [checkSignupPlan]

lemma signupErrors_eq_nil {fs : EventObj} (h : signupErrors fs = []) :
    checkSignupUserId (getField fs "user_id") = [] ∧
      checkSignupEmail (getField fs "email") = [] ∧
      checkSignupPlan (getField fs "plan") = [] := by
  simpa [signupErrors, List.append_eq_nil] using h

lemma signup_success {fs : EventObj} (h : signupErrors fs = []) :
    ∃ uid em pl,
      getField fs "user_id" = PyVal.int uid ∧
      getField fs "email" = PyVal.str em ∧
      getField fs "plan" = PyVal.str pl ∧
      _is_email em = true ∧ pyLower pl ∈ ALLOWED_PLANS ∧
      handle_user_signup fs = _ok "Signup processed"
        [("user_id", PyVal.int uid),
         ("email", PyVal.str (pyLower em)),
         ("plan", PyVal.str (pyLower pl)),
         ("welcome_email_subject",
           PyVal.str ("Welcome to the " ++ (pyLower pl ++ " plan!")))] := by
  obtain ⟨h1, h2, h3⟩ := signupErrors_eq_nil h
  obtain ⟨uid, hu⟩ := checkSignupUserId_eq_nil h1
  obtain ⟨em, he, hem⟩ := checkSignupEmail_eq_nil h2
  obtain ⟨pl, hp, hpl⟩ := checkSignupPlan_eq_nil h3
  refine ⟨uid, em, pl, hu, he, hp, hem, hpl, ?_⟩
  unfold handle_user_signup
  rw [hu, he, hp]
  simp [h]

lemma signup_failure {fs : EventObj} (h : signupErrors fs ≠ []) :
    handle_user_signup fs = _err (signupErrors fs) := by
  unfold handle_user_signup
  simp [h]

lemma handle_user_signup_errors (fs : EventObj) :
    (handle_user_signup fs).errors = signupErrors fs := by
  by_cases h : signupErrors fs = []
  · obtain ⟨uid, em, pl, _, _, _, _, _, heq⟩ := signup_success h
    rw [heq, h]
    rfl
  · rw [signup_failure h]
    rfl

lemma wf_handle_user_signup (fs : EventObj) : ResultWF (handle_user_signup fs) := by
  by_cases h : signupErrors fs = []
  · obtain ⟨uid, em, pl, _, _, _, _, _, heq⟩ := signup_success h
    rw [heq]
    exact wf_ok (by simp)
  · rw [signup_failure h]
    exact wf_err h

lemma checkPaymentPaymentId_eq_nil {v : PyVal} (h : checkPaymentPaymentId v = []) :
    ∃ s, v = PyVal.str s := by
  cases v <;> simp_all [checkPaymentPaymentId]

lemma checkPaymentUserId_eq_nil {v : PyVal} (h : checkPaymentUserId v = []) :
    ∃ n, v = PyVal.int n := by
  cases v <;> simp_all [checkPaymentUserId]

lemma checkPaymentAmount_eq_nil {v : PyVal} (h : checkPaymentAmount v = []) :
    ∃ d, numVal v = some d ∧ 0 < d.m := by
  cases v with
  | int n =>
      refine ⟨Dec.ofInt n, rfl, ?_⟩
      by_cases hn : n ≤ 0
      · simp [checkPaymentAmount, hn] at h
      · simpa [Dec.ofInt] using lt_of_not_le hn
  | float d =>
      refine ⟨d, rfl, ?_⟩
      by_cases hd : d.m ≤ 0
      · simp [checkPaymentAmount, hd] at h
      · exact lt_of_not_le hd
  | none => simp_all [checkPaymentAmount]
  | str s => simp_all [checkPaymentAmount]

lemma checkPaymentCurrency_eq_nil {v : PyVal} (h : checkPaymentCurrency v = []) :
    ∃ s, v = PyVal.str s ∧ pyUpper s ∈ ALLOWED_CURRENCIES := by
  cases v with
  | str s =>
      refine ⟨s, rfl, ?_⟩
      by_cases hC : pyUpper s ∈ ALLOWED_CURRENCIES
      · exact hC
      · simp [checkPaymentCurrency, hC] at h
  | none => simp_all [checkPaymentCurrency]
  | int n => simp_all [checkPaymentCurrency]
  | float d => simp_all [checkPaymentCurrency]

lemma paymentErrors_eq_nil {fs : EventObj} (h : paymentErrors fs = []) :
    checkPaymentPaymentId (getField fs "payment_id") = [] ∧
      checkPaymentUserId (getField fs "user_id") = [] ∧
      checkPaymentAmount (getField fs "amount") = [] ∧
      checkPaymentCurrency (getField fs "currency") = [] := by
  simpa [paymentErrors, List.append_eq_nil] using h

lemma payment_success {fs : EventObj} (h : paymentErrors fs = []) :
    ∃ pid uid amt cur,
      getField fs "payment_id" = PyVal.str pid ∧
      getField fs "user_id" = PyVal.int uid ∧
      numVal (getField fs "amount") = some amt ∧ 0 < amt.m ∧
      getField fs "currency" = PyVal.str cur ∧ pyUpper cur ∈ ALLOWED_CURRENCIES ∧
      handle_payment fs = _ok "Payment processed"
        [("payment_id", PyVal.str pid),
         ("user_id", PyVal.int uid),
         ("amount", PyVal.float (pyRound3 amt)),
         ("currency", PyVal.str (pyUpper cur)),
         ("fee", PyVal.float (pyRound3 (Dec.mul ⟨2, 2⟩ (pyRound3 amt)))),
         ("net_amount",
           PyVal.float (pyRound3 (Dec.sub (pyRound3 amt)
             (pyRound3 (Dec.mul ⟨2, 2⟩ (pyRound3 amt))))))] := by
  obtain ⟨h1, h2, h3, h4⟩ := paymentErrors_eq_nil h
  obtain ⟨pid, hpid⟩ := checkPaymentPaymentId_eq_nil h1
  obtain ⟨uid, huid⟩ := checkPaymentUserId_eq_nil h2
  obtain ⟨amt, hamt, hpos⟩ := checkPaymentAmount_eq_nil h3
  obtain ⟨cur, hcur, hcc⟩ := checkPaymentCurrency_eq_nil h4
  refine ⟨pid, uid, amt, cur, hpid, huid, hamt, hpos, hcur, hcc, ?_⟩
  unfold handle_payment
  rw [hpid, huid, hamt, hcur]
  simp [h]

lemma payment_failure {fs : EventObj} (h : paymentErrors fs ≠ []) :
    handle_payment fs = _err (paymentErrors fs) := by
  unfold handle_payment
  simp [h]

lemma handle_payment_errors (fs : EventObj) :
    (handle_payment fs).errors = paymentErrors fs := by
  by_cases h : paymentErrors fs = []
  · obtain ⟨pid, uid, amt, cur, _, _, _, _, _, _, heq⟩ := payment_success h
    rw [heq, h]
    rfl
  · rw [payment_failure h]
    rfl

lemma wf_handle_payment (fs : EventObj) : ResultWF (handle_payment fs) := by
  by_cases h : paymentErrors fs = []
  · obtain ⟨pid, uid, amt, cur, _, _, _, _, _, _, heq⟩ := payment_success h
    rw [heq]
    exact wf_ok (by simp)
  · rw [payment_failure h]
    exact wf_err h

lemma checkUploadFileName_eq_nil {v : PyVal} (h : checkUploadFileName v = []) :
    ∃ s, v = PyVal.str s := by
  cases v <;> simp_all [checkUploadFileName]

lemma checkUploadSizeBytes_eq_nil {v : PyVal} (h : checkUploadSizeBytes v = []) :
    ∃ n, v = PyVal.int n ∧ 0 ≤ n := by
  cases v with
  | int n =>
      refine ⟨n, rfl, ?_⟩
      by_cases hn : n < 0
      · simp [checkUploadSizeBytes, hn] at h
      · exact le_of_not_lt hn
  | none => simp_all [checkUploadSizeBytes]
  | float d => simp_all [checkUploadSizeBytes]
  | str s => simp_all [checkUploadSizeBytes]

lemma checkUploadBucket_eq_nil {v : PyVal} (h : checkUploadBucket v = []) :
    ∃ s, v = PyVal.str s := by
  cases v <;> simp_all [checkUploadBucket]

lemma checkUploadUploader_eq_nil {v : PyVal} (h : checkUploadUploader v = []) :
    ∃ s, v = PyVal.str s ∧ _is_email s = true := by
  cases v with
  | str s =>
      refine ⟨s, rfl, ?_⟩
      cases hE : _is_email s with
      | true => rfl
      | false => simp [checkUploadUploader, hE] at h
  | none => simp_all [checkUploadUploader]
  | int n => simp_all [checkUploadUploader]
  | float d => simp_all [checkUploadUploader]

lemma uploadErrors_eq_nil {fs : EventObj} (h : uploadErrors fs = []) :
    checkUploadFileName (getField fs "file_name") = [] ∧
      checkUploadSizeBytes (getField fs "size_bytes") = [] ∧
      checkUploadBucket (getField fs "bucket") = [] ∧
      checkUploadUploader (getField fs "uploader") = [] := by
  simpa [uploadErrors, List.append_eq_nil] using h

lemma upload_success {fs : EventObj} (h : uploadErrors fs = []) :
    ∃ fn sz bk up,
      getField fs "file_name" = PyVal.str fn ∧
      getField fs "size_bytes" = PyVal.int sz ∧ 0 ≤ sz ∧
      getField fs "bucket" = PyVal.str bk ∧
      getField fs "uploader" = PyVal.str up ∧ _is_email up = true ∧
      handle_file_upload fs = _ok "Upload processed"
        [("file_name", PyVal.str (pyStrip fn)),
         ("size_bytes", PyVal.int sz),
         ("bucket", PyVal.str (pyLower bk)),
         ("uploader", PyVal.str (pyLower up)),
         ("storage_class", PyVal.str (storageClassOf sz))] := by
  obtain ⟨h1, h2, h3, h4⟩ := uploadErrors_eq_nil h
  obtain ⟨fn, hfn⟩ := checkUploadFileName_eq_nil h1
  obtain ⟨sz, hsz, hnn⟩ := checkUploadSizeBytes_eq_nil h2
  obtain ⟨bk, hbk⟩ := checkUploadBucket_eq_nil h3
  obtain ⟨up, hup, hem⟩ := checkUploadUploader_eq_nil h4
  refine ⟨fn, sz, bk, up, hfn, hsz, hnn, hbk, hup, hem, ?_⟩
  unfold handle_file_upload
  rw [hfn, hsz, hbk, hup]
  simp [h]

lemma upload_failure {fs : EventObj} (h : uploadErrors fs ≠ []) :
    handle_file_upload fs = _err (uploadErrors fs) := by
  unfold handle_file_upload
  simp [h]

lemma handle_file_upload_errors (fs : EventObj) :
    (handle_file_upload fs).errors = uploadErrors fs := by
  by_cases h : uploadErrors fs = []
  · obtain ⟨fn, sz, bk, up, _, _, _, _, _, _, heq⟩ := upload_success h
    rw [heq, h]
    rfl
  · rw [upload_failure h]
    rfl

lemma wf_handle_file_upload (fs : EventObj) : ResultWF (handle_file_upload fs) := by
  by_cases h : uploadErrors fs = []
  · obtain ⟨fn, sz, bk, up, _, _, _, _, _, _, heq⟩ := upload_success h
    rw [heq]
    exact wf_ok (by simp)
  · rw [upload_failure h]
    exact wf_err h

lemma lookupField_of_getField {fs : EventObj} {k : String} {v : PyVal}
    (hv : getField fs k = v) (hne : v ≠ PyVal.none) : lookupField fs k = some v := by
  cases h : lookupField fs k with
  | none => simp [getField, h] at hv; exact absurd hv.symm hne
  | some w => simp [getField, h] at hv; rw [hv]

lemma isAllowedType_true {v : PyVal} (h : isAllowedType v = true) :
    v = PyVal.str "USER_SIGNUP" ∨ v = PyVal.str "PAYMENT" ∨ v = PyVal.str "FILE_UPLOAD" := by
  cases v with
  | str s =>
      have : s ∈ ALLOWED_TYPES := by simpa [isAllowedType] using h
      simp only [ALLOWED_TYPES, List.mem_cons, List.mem_singleton, List.not_mem_nil,
        or_false] at this
      rcases this with h' | h' | h' <;> subst h' <;> simp
  | none => simp [isAllowedType] at h
  | int n => simp [isAllowedType] at h
  | float d => simp [isAllowedType] at h

lemma handler_route_signup {fs : EventObj} {ctx : Option EventObj}
    (h : getField fs "type" = PyVal.str "USER_SIGNUP") :
    handler (PyEvent.obj fs) ctx = handle_user_signup fs := by
  have hl : lookupField fs "type" = some (PyVal.str "USER_SIGNUP") :=
    lookupField_of_getField h (by simp)
  simp only [handler]
  rw [hl, h]
  simp [isAllowedType, ALLOWED_TYPES]

lemma handler_route_payment {fs : EventObj} {ctx : Option EventObj}
    (h : getField fs "type" = PyVal.str "PAYMENT") :
    handler (PyEvent.obj fs) ctx = handle_payment fs := by
  have hl : lookupField fs "type" = some (PyVal.str "PAYMENT") :=
    lookupField_of_getField h (by simp)
  simp only [handler]
  rw [hl, h]
  simp [isAllowedType, ALLOWED_TYPES]

lemma handler_route_upload {fs : EventObj} {ctx : Option EventObj}
    (h : getField fs "type" = PyVal.str "FILE_UPLOAD") :
    handler (PyEvent.obj fs) ctx = handle_file_upload fs := by
  have hl : lookupField fs "type" = some (PyVal.str "FILE_UPLOAD") :=
    lookupField_of_getField h (by simp)
  simp only [handler]
  rw [hl, h]
  simp [isAllowedType, ALLOWED_TYPES]

lemma handler_no_type {fs : EventObj} {ctx : Option EventObj}
    (h : lookupField fs "type" = Option.none) :
    handler (PyEvent.obj fs) ctx = _err ["Missing required field: 'type'"] := by
  simp only [handler]
  rw [h]
  simp

lemma handler_bad_type {fs : EventObj} {ctx : Option EventObj}
    (hp : (lookupField fs "type").isSome = true)
    (hb : isAllowedType (getField fs "type") = false) :
    handler (PyEvent.obj fs) ctx =
      _err ["Unknown event type: '" ++
        (pyStr (getField fs "type") ++ ("'. Allowed: " ++ sortedJoin ALLOWED_TYPES))] := by
  simp only [handler]
  rw [hb]
  simp [hp]

/-- Every outcome of the dispatcher: one of the two structural errors, or one
of the three handlers on a matching discriminator. -/
lemma handler_cases (ev : PyEvent) (ctx : Option EventObj) :
    (handler ev ctx = _err ["Event must be a JSON object (dict), not a list or other type"]) ∨
    (∃ fs, ev = PyEvent.obj fs ∧
      handler ev ctx = _err ["Missing required field: 'type'"]) ∨
    (∃ fs, ev = PyEvent.obj fs ∧
      handler ev ctx = _err ["Unknown event type: '" ++
        (pyStr (getField fs "type") ++ ("'. Allowed: " ++ sortedJoin ALLOWED_TYPES))]) ∨
    (∃ fs, ev = PyEvent.obj fs ∧ getField fs "type" = PyVal.str "USER_SIGNUP" ∧
      handler ev ctx = handle_user_signup fs) ∨
    (∃ fs, ev = PyEvent.obj fs ∧ getField fs "type" = PyVal.str "PAYMENT" ∧
      handler ev ctx = handle_payment fs) ∨
    (∃ fs, ev = PyEvent.obj fs ∧ getField fs "type" = PyVal.str "FILE_UPLOAD" ∧
      handler ev ctx = handle_file_upload fs) := by
  cases ev with
  | other v => exact Or.inl rfl
  | obj fs =>
      cases hl : lookupField fs "type" with
      | none => exact Or.inr (Or.inl ⟨fs, rfl, handler_no_type hl⟩)
      | some w =>
          by_cases ha : isAllowedType (getField fs "type") = true
          · rcases isAllowedType_true ha with h | h | h
            · exact Or.inr (Or.inr (Or.inr (Or.inl ⟨fs, rfl, h, handler_route_signup h⟩)))
            · exact Or.inr (Or.inr (Or.inr (Or.inr (Or.inl
                ⟨fs, rfl, h, handler_route_payment h⟩))))
            · exact Or.inr (Or.inr (Or.inr (Or.inr (Or.inr
                ⟨fs, rfl, h, handler_route_upload h⟩))))
          · refine Or.inr (Or.inr (Or.inl ⟨fs, rfl, ?_⟩))
            exact handler_bad_type (by rw [hl]; rfl) (by simpa using ha)

lemma signup_dichotomy (fs : EventObj) :
    (handle_user_signup fs = _err (signupErrors fs) ∧ signupErrors fs ≠ []) ∨
      ∃ d, handle_user_signup fs = _ok "Signup processed" d := by
  by_cases h : signupErrors fs = []
  · obtain ⟨_, _, _, _, _, _, _, _, heq⟩ := signup_success h
    exact Or.inr ⟨_, heq⟩
  · exact Or.inl ⟨signup_failure h, h⟩

lemma payment_dichotomy (fs : EventObj) :
    (handle_payment fs = _err (paymentErrors fs) ∧ paymentErrors fs ≠ []) ∨
      ∃ d, handle_payment fs = _ok "Payment processed" d := by
  by_cases h : paymentErrors fs = []
  · obtain ⟨_, _, _, _, _, _, _, _, _, _, heq⟩ := payment_success h
    exact Or.inr ⟨_, heq⟩
  · exact Or.inl ⟨payment_failure h, h⟩

lemma upload_dichotomy (fs : EventObj) :
    (handle_file_upload fs = _err (uploadErrors fs) ∧ uploadErrors fs ≠ []) ∨
      ∃ d, handle_file_upload fs = _ok "Upload processed" d := by
  by_cases h : uploadErrors fs = []
  · obtain ⟨_, _, _, _, _, _, _, _, _, _, heq⟩ := upload_success h
    exact Or.inr ⟨_, heq⟩
  · exact Or.inl ⟨upload_failure h, h⟩

lemma sortedJoin_types :
    sortedJoin ALLOWED_TYPES = "FILE_UPLOAD, PAYMENT, USER_SIGNUP" := by decide

/-- C1: for every input event and any context, the Result returned by the
entry point has status exactly `"ok"` or `"error"`; when the status is `"ok"`
the errors sequence is empty and the data is a populated mapping; when the
status is `"error"` the errors sequence is non-empty and the data is null.
In particular no Result has both a non-empty errors sequence and status
`"ok"`. -/
theorem c1_result_invariant (ev : PyEvent) (ctx : Option EventObj) :
    ResultWF (handler ev ctx) := by
  rcases handler_cases ev ctx with h | ⟨fs, _, h⟩ | ⟨fs, _, h⟩ |
    ⟨fs, _, _, h⟩ | ⟨fs, _, _, h⟩ | ⟨fs, _, _, h⟩
  · rw [h]
    exact wf_err (by simp)
  · rw [h]
    exact wf_err (by simp)
  · rw [h]
    exact wf_err (by simp)
  · rw [h]
    exact wf_handle_user_signup fs
  · rw [h]
    exact wf_handle_payment fs
  · rw [h]
    exact wf_handle_file_upload fs

/-- Witness for C1 at a concrete event. -/
theorem c1_result_invariant_witness :
    ResultWF (handler (PyEvent.obj []) Option.none) :=
  c1_result_invariant (PyEvent.obj []) Option.none

/-- C5: the USER_SIGNUP event with `user_id` absent, `email = "bad"` and
`plan = "ultra"` yields exactly the three expected error strings in order;
in general the signup handler's error sequence is always the `user_id`
checks, then the `email` checks, then the `plan` checks (every field is
checked before the outcome is decided). -/
theorem c5_signup_error_order :
    (handler (PyEvent.obj [("type", PyVal.str "USER_SIGNUP"),
        ("email", PyVal.str "bad"), ("plan", PyVal.str "ultra")]) Option.none =
      _err ["Missing required field: 'user_id'", "Invalid email format: 'bad'",
        "Invalid plan: 'ultra'. Allowed: edu, free, pro"]) ∧
    ∀ fs : EventObj, (handle_user_signup fs).errors =
      checkSignupUserId (getField fs "user_id") ++
        (checkSignupEmail (getField fs "email") ++ checkSignupPlan (getField fs "plan")) :=
  ⟨by decide, fun fs => handle_user_signup_errors fs⟩

/-- C6: whenever the `type` field is present but not one of the three allowed
event types, the dispatcher returns an error Result whose errors sequence is
exactly one string naming the offending value and listing the allowed set
sorted alphabetically and comma-joined; no handler output is involved. -/
theorem c6_unknown_type (fs : EventObj) (ctx : Option EventObj)
    (hp : (lookupField fs "type").isSome = true)
    (hb : isAllowedType (getField fs "type") = false) :
    handler (PyEvent.obj fs) ctx =
      _err ["Unknown event type: '" ++
        (pyStr (getField fs "type") ++ ("'. Allowed: FILE_UPLOAD, PAYMENT, USER_SIGNUP"))] := by
  rw [handler_bad_type hp hb, sortedJoin_types]
  rfl

/-- Witness for C6 at a concrete event with an unknown type. -/
theorem c6_unknown_type_witness :
    (lookupField [("type", PyVal.str "ORDER")] "type").isSome = true ∧
    isAllowedType (getField [("type", PyVal.str "ORDER")] "type") = false ∧
    handler (PyEvent.obj [("type", PyVal.str "ORDER")]) Option.none =
      _err ["Unknown event type: 'ORDER'. Allowed: FILE_UPLOAD, PAYMENT, USER_SIGNUP"] := by
  refine ⟨by decide, by decide, ?_⟩
  rw [c6_unknown_type [("type", PyVal.str "ORDER")] Option.none (by decide) (by decide)]
  decide

/-- C8: the entry point's output depends only on the event: any two context
values (present or absent) give identical Results, and calling it twice on
the same event gives identical output. -/
theorem c8_context_independent (ev : PyEvent) (ctxa ctxb : Option EventObj) :
    handler ev ctxa = handler ev ctxb ∧ handler ev ctxa = handler ev ctxa := by
  cases ev <;> exact ⟨rfl, rfl⟩

/-- C9: every error Result carries the message `"Event rejected"` (including
per-field validation failures inside the three handlers), and every ok Result
carries the matching handler's success message. -/
theorem c9_messages (ev : PyEvent) (ctx : Option EventObj) :
    ((handler ev ctx).status = "error" → (handler ev ctx).message = "Event rejected") ∧
    ((handler ev ctx).status = "ok" → ∃ fs, ev = PyEvent.obj fs ∧
      ((getField fs "type" = PyVal.str "USER_SIGNUP" ∧
          (handler ev ctx).message = "Signup processed") ∨
       (getField fs "type" = PyVal.str "PAYMENT" ∧
          (handler ev ctx).message = "Payment processed") ∨
       (getField fs "type" = PyVal.str "FILE_UPLOAD" ∧
          (handler ev ctx).message = "Upload processed"))) := by
  rcases handler_cases ev ctx with h | ⟨fs, hev, h⟩ | ⟨fs, hev, h⟩ |
    ⟨fs, hev, hty, h⟩ | ⟨fs, hev, hty, h⟩ | ⟨fs, hev, hty, h⟩
  · rw [h]
    exact ⟨fun _ => rfl, fun hok => by simp [_err] at hok⟩
  · rw [h]
    exact ⟨fun _ => rfl, fun hok => by simp [_err] at hok⟩
  · rw [h]
    exact ⟨fun _ => rfl, fun hok => by simp [_err] at hok⟩
  · rcases signup_dichotomy fs with ⟨herr, _⟩ | ⟨d, hok⟩
    · rw [h, herr]
      exact ⟨fun _ => rfl, fun hok2 => by simp [_err] at hok2⟩
    · rw [h, hok]
      exact ⟨fun herr2 => by simp [_ok] at herr2, fun _ => ⟨fs, hev, Or.inl ⟨hty, rfl⟩⟩⟩
  · rcases payment_dichotomy fs with ⟨herr, _⟩ | ⟨d, hok⟩
    · rw [h, herr]
      exact ⟨fun _ => rfl, fun hok2 => by simp [_err] at hok2⟩
    · rw [h, hok]
      exact ⟨fun herr2 => by simp [_ok] at herr2,
        fun _ => ⟨fs, hev, Or.inr (Or.inl ⟨hty, rfl⟩)⟩⟩
  · rcases upload_dichotomy fs with ⟨herr, _⟩ | ⟨d, hok⟩
    · rw [h, herr]
      exact ⟨fun _ => rfl, fun hok2 => by simp [_err] at hok2⟩
    · rw [h, hok]
      exact ⟨fun herr2 => by simp [_ok] at herr2,
        fun _ => ⟨fs, hev, Or.inr (Or.inr ⟨hty, rfl⟩)⟩⟩

/-- Witness for C9: a concrete rejected event and a concrete accepted one. -/
theorem c9_messages_witness :
    (handler (PyEvent.other (PyVal.int 0)) Option.none).message = "Event rejected" ∧
    (∃ fs, okUploadEvent = PyEvent.obj fs ∧
      ((getField fs "type" = PyVal.str "USER_SIGNUP" ∧
          (handler okUploadEvent Option.none).message = "Signup processed") ∨
       (getField fs "type" = PyVal.str "PAYMENT" ∧
          (handler okUploadEvent Option.none).message = "Payment processed") ∨
       (getField fs "type" = PyVal.str "FILE_UPLOAD" ∧
          (handler okUploadEvent Option.none).message = "Upload processed"))) :=
  ⟨(c9_messages (PyEvent.other (PyVal.int 0)) Option.none).1 rfl,
   (c9_messages okUploadEvent Option.none).2 (by decide)⟩

/-- C2: for every PAYMENT event with a string `payment_id`, an integer
`user_id`, a positive numeric `amount` and an allowed currency
(case-insensitively), the success data carries the amount converted to a
float and rounded to 3 decimal places, the upper-cased currency,
`fee = 0.02 × amount` rounded to 3 places, and `net_amount` = the rounded
amount minus the rounded fee, rounded to 3 places. -/
theorem c2_payment_normalization (fs : EventObj) (ctx : Option EventObj)
    (pid : String) (uid : Int) (amt : Dec) (cur : String)
    (hty : getField fs "type" = PyVal.str "PAYMENT")
    (hpid : getField fs "payment_id" = PyVal.str pid)
    (huid : getField fs "user_id" = PyVal.int uid)
    (hamt : numVal (getField fs "amount") = some amt)
    (hpos : 0 < amt.m)
    (hcur : getField fs "currency" = PyVal.str cur)
    (hcc : pyUpper cur ∈ ALLOWED_CURRENCIES) :
    handler (PyEvent.obj fs) ctx = _ok "Payment processed"
      [("payment_id", PyVal.str pid),
       ("user_id", PyVal.int uid),
       ("amount", PyVal.float (pyRound3 amt)),
       ("currency", PyVal.str (pyUpper cur)),
       ("fee", PyVal.float (pyRound3 (Dec.mul ⟨2, 2⟩ (pyRound3 amt)))),
       ("net_amount", PyVal.float (pyRound3 (Dec.sub (pyRound3 amt)
           (pyRound3 (Dec.mul ⟨2, 2⟩ (pyRound3 amt))))))] := by
  rw [handler_route_payment hty]
  have hA : checkPaymentAmount (getField fs "amount") = [] := by
    cases hv : getField fs "amount" with
    | int n =>
        rw [hv] at hamt
        have ha : Dec.ofInt n = amt := by simpa [numVal] using hamt
        have hn : 0 < n := by
          have := hpos
          rw [← ha] at this
          simpa [Dec.ofInt] using this
        simp [checkPaymentAmount, show ¬n ≤ 0 from not_le.mpr hn]
    | float d =>
        rw [hv] at hamt
        have ha : d = amt := by simpa [numVal] using hamt
        subst ha
        simp [checkPaymentAmount, show ¬d.m ≤ 0 from not_le.mpr hpos]
    | none => rw [hv] at hamt; simp [numVal] at hamt
    | str s => rw [hv] at hamt; simp [numVal] at hamt
  have hperr : paymentErrors fs = [] := by
    unfold paymentErrors
    rw [hpid, huid, hcur, hA]
    simp [checkPaymentPaymentId, checkPaymentUserId, checkPaymentCurrency, hcc]
  obtain ⟨pid', uid', amt', cur', h1, h2, h3, _, h5, _, heq⟩ := payment_success hperr
  rw [hpid] at h1
  rw [huid] at h2
  rw [hamt] at h3
  rw [hcur] at h5
  obtain rfl : pid = pid' := by simpa using h1
  obtain rfl : uid = uid' := by simpa using h2
  obtain rfl : amt = amt' := by simpa using h3
  obtain rfl : cur = cur' := by simpa using h5
  exact heq

/-- Witness for C2: the spec's fee law, `amount = 100.0`, `currency = "usd"`
gives `fee = 2.0`, `net_amount = 98.0`, `currency = "USD"`. -/
theorem c2_payment_normalization_witness :
    numVal (getField payFields "amount") = some (Dec.ofInt 100) ∧
    0 < (Dec.ofInt 100).m ∧
    pyUpper "usd" ∈ ALLOWED_CURRENCIES ∧
    handler (PyEvent.obj payFields) Option.none = _ok "Payment processed"
      [("payment_id", PyVal.str "p1"), ("user_id", PyVal.int 7),
       ("amount", PyVal.float (Dec.ofInt 100)), ("currency", PyVal.str "USD"),
       ("fee", PyVal.float (Dec.ofInt 2)), ("net_amount", PyVal.float (Dec.ofInt 98))] := by
  refine ⟨by decide, by decide, by decide, ?_⟩
  rw [c2_payment_normalization payFields Option.none "p1" 7 (Dec.ofInt 100) "usd"
    (by decide) (by decide) (by decide) (by decide) (by decide) (by decide) (by decide)]
  decide

/-- C3: for every valid FILE_UPLOAD event the success data's `storage_class`
is determined solely by `size_bytes` through the three bands
`< 1000000 → STANDARD`, `< 50000000 → STANDARD_IA`, otherwise `GLACIER`. -/
theorem c3_storage_bands (fs : EventObj) (ctx : Option EventObj)
    (fn : String) (sz : Int) (bk up : String)
    (hty : getField fs "type" = PyVal.str "FILE_UPLOAD")
    (hfn : getField fs "file_name" = PyVal.str fn)
    (hsz : getField fs "size_bytes" = PyVal.int sz) (hnn : 0 ≤ sz)
    (hbk : getField fs "bucket" = PyVal.str bk)
    (hup : getField fs "uploader" = PyVal.str up) (hem : _is_email up = true) :
    handler (PyEvent.obj fs) ctx = _ok "Upload processed"
      [("file_name", PyVal.str (pyStrip fn)),
       ("size_bytes", PyVal.int sz),
       ("bucket", PyVal.str (pyLower bk)),
       ("uploader", PyVal.str (pyLower up)),
       ("storage_class", PyVal.str
         (if sz < 1000000 then "STANDARD"
          else if sz < 50000000 then "STANDARD_IA"
          else "GLACIER"))] := by
  rw [handler_route_upload hty]
  have huerr : uploadErrors fs = [] := by
    unfold uploadErrors
    rw [hfn, hsz, hbk, hup]
    simp [checkUploadFileName, checkUploadSizeBytes, checkUploadBucket, checkUploadUploader,
      hem, show ¬sz < 0 from not_lt.mpr hnn]
  obtain ⟨fn', sz', bk', up', h1, h2, _, h4, h5, _, heq⟩ := upload_success huerr
  rw [hfn] at h1
  rw [hsz] at h2
  rw [hbk] at h4
  rw [hup] at h5
  obtain rfl : fn = fn' := by simpa using h1
  obtain rfl : sz = sz' := by simpa using h2
  obtain rfl : bk = bk' := by simpa using h4
  obtain rfl : up = up' := by simpa using h5
  exact heq

/-- Witness for C3: the three storage-class boundary sizes. -/
theorem c3_storage_bands_witness :
    ((0 : Int) ≤ 999999 ∧ handler (PyEvent.obj (uploadFields 999999)) Option.none =
      _ok "Upload processed"
        [("file_name", PyVal.str "f.txt"), ("size_bytes", PyVal.int 999999),
         ("bucket", PyVal.str "b"), ("uploader", PyVal.str "u@v.w"),
         ("storage_class", PyVal.str "STANDARD")]) ∧
    ((0 : Int) ≤ 1000000 ∧ handler (PyEvent.obj (uploadFields 1000000)) Option.none =
      _ok "Upload processed"
        [("file_name", PyVal.str "f.txt"), ("size_bytes", PyVal.int 1000000),
         ("bucket", PyVal.str "b"), ("uploader", PyVal.str "u@v.w"),
         ("storage_class", PyVal.str "STANDARD_IA")]) ∧
    ((0 : Int) ≤ 50000000 ∧ handler (PyEvent.obj (uploadFields 50000000)) Option.none =
      _ok "Upload processed"
        [("file_name", PyVal.str "f.txt"), ("size_bytes", PyVal.int 50000000),
         ("bucket", PyVal.str "b"), ("uploader", PyVal.str "u@v.w"),
         ("storage_class", PyVal.str "GLACIER")]) := by
  refine ⟨⟨by decide, ?_⟩, ⟨by decide, ?_⟩, ⟨by decide, ?_⟩⟩
  · rw [c3_storage_bands (uploadFields 999999) Option.none "f.txt" 999999 "b" "u@v.w"
      (by decide) (by decide) (by decide) (by decide) (by decide) (by decide) (by decide)]
    decide
  · rw [c3_storage_bands (uploadFields 1000000) Option.none "f.txt" 1000000 "b" "u@v.w"
      (by decide) (by decide) (by decide) (by decide) (by decide) (by decide) (by decide)]
    decide
  · rw [c3_storage_bands (uploadFields 50000000) Option.none "f.txt" 50000000 "b" "u@v.w"
      (by decide) (by decide) (by decide) (by decide) (by decide) (by decide) (by decide)]
    decide

/-- C7: every PAYMENT event whose `amount` is present and numeric with value
`≤ 0` produces an error Result whose errors contain
`"'amount' must be greater than 0, got <value>"` with the literal input value
rendered in place (zero and negative alike). -/
theorem c7_nonpositive_amount (fs : EventObj) (ctx : Option EventObj) (amt : Dec)
    (hty : getField fs "type" = PyVal.str "PAYMENT")
    (hamt : numVal (getField fs "amount") = some amt)
    (hle : amt.m ≤ 0) :
    (handler (PyEvent.obj fs) ctx).status = "error" ∧
    ("'amount' must be greater than 0, got " ++ pyStr (getField fs "amount")) ∈
      (handler (PyEvent.obj fs) ctx).errors := by
  rw [handler_route_payment hty]
  have hmem : ("'amount' must be greater than 0, got " ++ pyStr (getField fs "amount")) ∈
      checkPaymentAmount (getField fs "amount") := by
    cases hv : getField fs "amount" with
    | int n =>
        rw [hv] at hamt
        have ha : Dec.ofInt n = amt := by simpa [numVal] using hamt
        have hn : n ≤ 0 := by
          have := hle
          rw [← ha] at this
          simpa [Dec.ofInt] using this
        simp [checkPaymentAmount, hn]
    | float d =>
        rw [hv] at hamt
        have ha : d = amt := by simpa [numVal] using hamt
        subst ha
        simp [checkPaymentAmount, hle]
    | none => rw [hv] at hamt; simp [numVal] at hamt
    | str s => rw [hv] at hamt; simp [numVal] at hamt
  have hne : paymentErrors fs ≠ [] := by
    intro h0
    rw [(paymentErrors_eq_nil h0).2.2.1] at hmem
    exact absurd hmem (List.not_mem_nil _)
  rw [payment_failure hne]
  refine ⟨rfl, ?_⟩
  show _ ∈ paymentErrors fs
  unfold paymentErrors
  exact List.mem_append_right _ (List.mem_append_right _ (List.mem_append_left _ hmem))

/-- Witness for C7: `amount = 0` (int) and `amount = -0.5` (float). -/
theorem c7_nonpositive_amount_witness :
    (numVal (getField (payBad (PyVal.int 0)) "amount") = some (Dec.ofInt 0) ∧
      (Dec.ofInt 0).m ≤ 0 ∧
      pyStr (getField (payBad (PyVal.int 0)) "amount") = "0" ∧
      ("'amount' must be greater than 0, got " ++
          pyStr (getField (payBad (PyVal.int 0)) "amount")) ∈
        (handler (PyEvent.obj (payBad (PyVal.int 0))) Option.none).errors) ∧
    (numVal (getField (payBad (PyVal.float ⟨-5, 1⟩)) "amount") = some (⟨-5, 1⟩ : Dec) ∧
      (⟨-5, 1⟩ : Dec).m ≤ 0 ∧
      pyStr (getField (payBad (PyVal.float ⟨-5, 1⟩)) "amount") = "-0.5" ∧
      ("'amount' must be greater than 0, got " ++
          pyStr (getField (payBad (PyVal.float ⟨-5, 1⟩)) "amount")) ∈
        (handler (PyEvent.obj (payBad (PyVal.float ⟨-5, 1⟩))) Option.none).errors) :=
  ⟨⟨by decide, by decide, by decide,
     (c7_nonpositive_amount (payBad (PyVal.int 0)) Option.none (Dec.ofInt 0)
       (by decide) (by decide) (by decide)).2⟩,
   ⟨by decide, by decide, by decide,
     (c7_nonpositive_amount (payBad (PyVal.float ⟨-5, 1⟩)) Option.none (⟨-5, 1⟩ : Dec)
       (by decide) (by decide) (by decide)).2⟩⟩

lemma lookupField_eraseKey_self (k : String) (fs : EventObj) :
    lookupField (eraseKey k fs) k = Option.none := by
  induction fs with
  | nil => rfl
  | cons p rest ih =>
      obtain ⟨k', v⟩ := p
      by_cases h : k' = k
      · simpa [eraseKey, h] using ih
      · simpa [eraseKey, h, lookupField] using ih

lemma lookupField_eraseKey_ne {key k : String} (hkey : key ≠ k) (fs : EventObj) :
    lookupField (eraseKey k fs) key = lookupField fs key := by
  induction fs with
  | nil => rfl
  | cons p rest ih =>
      obtain ⟨k', v⟩ := p
      by_cases h : k' = k
      · subst h
        have hk2 : ¬(k' = key) := fun hh => hkey hh.symm
        simpa [eraseKey, lookupField, hk2] using ih
      · by_cases h2 : k' = key
        · simp [eraseKey, h, lookupField, h2, hkey]
        · simpa [eraseKey, h, lookupField, h2] using ih

lemma getField_eraseKey_self (k : String) (fs : EventObj) :
    getField (eraseKey k fs) k = PyVal.none := by
  simp [getField, lookupField_eraseKey_self]

lemma getField_eraseKey_ne {key k : String} (hkey : key ≠ k) (fs : EventObj) :
    getField (eraseKey k fs) key = getField fs key := by
  simp [getField, lookupField_eraseKey_ne hkey]

lemma signup_getField_ext {fsa fsb : EventObj}
    (h : ∀ key, getField fsa key = getField fsb key) :
    handle_user_signup fsa = handle_user_signup fsb := by
  simp only [handle_user_signup, signupErrors, h]

lemma payment_getField_ext {fsa fsb : EventObj}
    (h : ∀ key, getField fsa key = getField fsb key) :
    handle_payment fsa = handle_payment fsb := by
  simp only [handle_payment, paymentErrors, h]

lemma upload_getField_ext {fsa fsb : EventObj}
    (h : ∀ key, getField fsa key = getField fsb key) :
    handle_file_upload fsa = handle_file_upload fsb := by
  simp only [handle_file_upload, uploadErrors, h]

lemma isPrefixOf_append_self (l r : List Char) : l.isPrefixOf (l ++ r) = true := by
  induction l with
  | nil => cases r <;> rfl
  | cons a as ih =>
      show (a == a && as.isPrefixOf (as ++ r)) = true
      simp [ih]

lemma ne_of_not_isPrefixOf {pre tgt : String} (s : String)
    (h : pre.data.isPrefixOf tgt.data = false) : pre ++ s ≠ tgt := by
  intro he
  rw [← he, String.data_append, isPrefixOf_append_self] at h
  cases h

lemma checkSignupUserId_chars {v : PyVal} {m : String} (hm : m ∈ checkSignupUserId v) :
    m = missingMsg "user_id" ∨ m = "'user_id' must be an integer" := by
  cases v with
  | none => exact Or.inl (by simpa [checkSignupUserId] using hm)
  | int n => exact absurd hm (by simp [checkSignupUserId])
  | float d => exact Or.inr (by simpa [checkSignupUserId] using hm)
  | str s => exact Or.inr (by simpa [checkSignupUserId] using hm)

lemma checkSignupEmail_chars {v : PyVal} {m : String} (hm : m ∈ checkSignupEmail v) :
    m = missingMsg "email" ∨ m = "'email' must be a string" ∨
      ∃ t, m = "Invalid email format: '" ++ t := by
  cases v with
  | none => exact Or.inl (by simpa [checkSignupEmail] using hm)
  | int n => exact Or.inr (Or.inl (by simpa [checkSignupEmail] using hm))
  | float d => exact Or.inr (Or.inl (by simpa [checkSignupEmail] using hm))
  | str s =>
      by_cases hE : _is_email s
      · simp [checkSignupEmail, hE] at hm
      · exact Or.inr (Or.inr ⟨s ++ "'", by simpa [checkSignupEmail, hE] using hm⟩)

lemma checkSignupPlan_chars {v : PyVal} {m : String} (hm : m ∈ checkSignupPlan v) :
    m = missingMsg "plan" ∨ m = "'plan' must be a string" ∨
      ∃ t, m = "Invalid plan: '" ++ t := by
  cases v with
  | none => exact Or.inl (by simpa [checkSignupPlan] using hm)
  | int n => exact Or.inr (Or.inl (by simpa [checkSignupPlan] using hm))
  | float d => exact Or.inr (Or.inl (by simpa [checkSignupPlan] using hm))
  | str s =>
      by_cases hP : pyLower s ∈ ALLOWED_PLANS
      · simp [checkSignupPlan, hP] at hm
      · exact Or.inr (Or.inr ⟨s ++ ("'. Allowed: " ++ sortedJoin ALLOWED_PLANS),
          by simpa [checkSignupPlan, hP] using hm⟩)

lemma checkPaymentPaymentId_chars {v : PyVal} {m : String} (hm : m ∈ checkPaymentPaymentId v) :
    m = missingMsg "payment_id" ∨ m = "'payment_id' must be a string" := by
  cases v with
  | none => exact Or.inl (by simpa [checkPaymentPaymentId] using hm)
  | int n => exact Or.inr (by simpa [checkPaymentPaymentId] using hm)
  | float d => exact Or.inr (by simpa [checkPaymentPaymentId] using hm)
  | str s => exact absurd hm (by simp [checkPaymentPaymentId])

lemma checkPaymentUserId_chars {v : PyVal} {m : String} (hm : m ∈ checkPaymentUserId v) :
    m = missingMsg "user_id" ∨ m = "'user_id' must be an integer" := by
  cases v with
  | none => exact Or.inl (by simpa [checkPaymentUserId] using hm)
  | int n => exact absurd hm (by simp [checkPaymentUserId])
  | float d => exact Or.inr (by simpa [checkPaymentUserId] using hm)
  | str s => exact Or.inr (by simpa [checkPaymentUserId] using hm)

lemma checkPaymentAmount_chars {v : PyVal} {m : String} (hm : m ∈ checkPaymentAmount v) :
    m = missingMsg "amount" ∨ m = "'amount' must be a number" ∨
      ∃ t, m = "'amount' must be greater than 0, got " ++ t := by
  cases v with
  | none => exact Or.inl (by simpa [checkPaymentAmount] using hm)
  | str s => exact Or.inr (Or.inl (by simpa [checkPaymentAmount] using hm))
  | int n =>
      by_cases hn : n ≤ 0
      · exact Or.inr (Or.inr ⟨pyStr (PyVal.int n),
          by simpa [checkPaymentAmount, hn] using hm⟩)
      · simp [checkPaymentAmount, hn] at hm
  | float d =>
      by_cases hd : d.m ≤ 0
      · exact Or.inr (Or.inr ⟨pyStr (PyVal.float d),
          by simpa [checkPaymentAmount, hd] using hm⟩)
      · simp [checkPaymentAmount, hd] at hm

lemma checkPaymentCurrency_chars {v : PyVal} {m : String} (hm : m ∈ checkPaymentCurrency v) :
    m = missingMsg "currency" ∨ m = "'currency' must be a string" ∨
      ∃ t, m = "Invalid currency: '" ++ t := by
  cases v with
  | none => exact Or.inl (by simpa [checkPaymentCurrency] using hm)
  | int n => exact Or.inr (Or.inl (by simpa [checkPaymentCurrency] using hm))
  | float d => exact Or.inr (Or.inl (by simpa [checkPaymentCurrency] using hm))
  | str s =>
      by_cases hC : pyUpper s ∈ ALLOWED_CURRENCIES
      · simp [checkPaymentCurrency, hC] at hm
      · exact Or.inr (Or.inr ⟨s ++ ("'. Allowed: " ++ sortedJoin ALLOWED_CURRENCIES),
          by simpa [checkPaymentCurrency, hC] using hm⟩)

lemma checkUploadFileName_chars {v : PyVal} {m : String} (hm : m ∈ checkUploadFileName v) :
    m = missingMsg "file_name" ∨ m = "'file_name' must be a string" := by
  cases v with
  | none => exact Or.inl (by simpa [checkUploadFileName] using hm)
  | int n => exact Or.inr (by simpa [checkUploadFileName] using hm)
  | float d => exact Or.inr (by simpa [checkUploadFileName] using hm)
  | str s => exact absurd hm (by simp [checkUploadFileName])

lemma checkUploadSizeBytes_chars {v : PyVal} {m : String} (hm : m ∈ checkUploadSizeBytes v) :
    m = missingMsg "size_bytes" ∨ m = "'size_bytes' must be an integer" ∨
      m = "'size_bytes' must be >= 0" := by
  cases v with
  | none => exact Or.inl (by simpa [checkUploadSizeBytes] using hm)
  | float d => exact Or.inr (Or.inl (by simpa [checkUploadSizeBytes] using hm))
  | str s => exact Or.inr (Or.inl (by simpa [checkUploadSizeBytes] using hm))
  | int n =>
      by_cases hn : n < 0
      · exact Or.inr (Or.inr (by simpa [checkUploadSizeBytes, hn] using hm))
      · simp [checkUploadSizeBytes, hn] at hm

lemma checkUploadBucket_chars {v : PyVal} {m : String} (hm : m ∈ checkUploadBucket v) :
    m = missingMsg "bucket" ∨ m = "'bucket' must be a string" := by
  cases v with
  | none => exact Or.inl (by simpa [checkUploadBucket] using hm)
  | int n => exact Or.inr (by simpa [checkUploadBucket] using hm)
  | float d => exact Or.inr (by simpa [checkUploadBucket] using hm)
  | str s => exact absurd hm (by simp [checkUploadBucket])

lemma checkUploadUploader_chars {v : PyVal} {m : String} (hm : m ∈ checkUploadUploader v) :
    m = missingMsg "uploader" ∨ m = "'uploader' must be a string" ∨
      ∃ t, m = "Invalid uploader email: '" ++ t := by
  cases v with
  | none => exact Or.inl (by simpa [checkUploadUploader] using hm)
  | int n => exact Or.inr (Or.inl (by simpa [checkUploadUploader] using hm))
  | float d => exact Or.inr (Or.inl (by simpa [checkUploadUploader] using hm))
  | str s =>
      by_cases hE : _is_email s
      · simp [checkUploadUploader, hE] at hm
      · exact Or.inr (Or.inr ⟨s ++ "'", by simpa [checkUploadUploader, hE] using hm⟩)

lemma signup_null_field {fs : EventObj} {k : String}
    (hk : k ∈ requiredFields HandlerTag.signup) (hnull : getField fs k = PyVal.none) :
    missingMsg k ∈ signupErrors fs ∧ wrongTypeMsg HandlerTag.signup k ∉ signupErrors fs := by
  have hk' : k = "user_id" ∨ k = "email" ∨ k = "plan" := by
    simpa [requiredFields] using hk
  rcases hk' with rfl | rfl | rfl
  · refine ⟨?_, ?_⟩
    · unfold signupErrors
      rw [hnull]
      exact List.mem_append_left _ (by simp [checkSignupUserId])
    · intro hmem
      unfold signupErrors at hmem
      rw [hnull] at hmem
      rcases List.mem_append.mp hmem with h1 | h23
      · simp [checkSignupUserId] at h1
        exact absurd h1 (by decide)
      · rcases List.mem_append.mp h23 with h2 | h3
        · rcases checkSignupEmail_chars h2 with hh | hh | ⟨t, hh⟩
          · exact absurd hh (by decide)
          · exact absurd hh (by decide)
          · exact absurd hh.symm (ne_of_not_isPrefixOf t (by decide))
        · rcases checkSignupPlan_chars h3 with hh | hh | ⟨t, hh⟩
          · exact absurd hh (by decide)
          · exact absurd hh (by decide)
          · exact absurd hh.symm (ne_of_not_isPrefixOf t (by decide))
  · refine ⟨?_, ?_⟩
    · unfold signupErrors
      rw [hnull]
      exact List.mem_append_right _ (List.mem_append_left _ (by simp [checkSignupEmail]))
    · intro hmem
      unfold signupErrors at hmem
      rw [hnull] at hmem
      rcases List.mem_append.mp hmem with h1 | h23
      · rcases checkSignupUserId_chars h1 with hh | hh
        · exact absurd hh (by decide)
        · exact absurd hh (by decide)
      · rcases List.mem_append.mp h23 with h2 | h3
        · simp [checkSignupEmail] at h2
          exact absurd h2 (by decide)
        · rcases checkSignupPlan_chars h3 with hh | hh | ⟨t, hh⟩
          · exact absurd hh (by decide)
          · exact absurd hh (by decide)
          · exact absurd hh.symm (ne_of_not_isPrefixOf t (by decide))
  · refine ⟨?_, ?_⟩
    · unfold signupErrors
      rw [hnull]
      exact List.mem_append_right _ (List.mem_append_right _ (by simp [checkSignupPlan]))
    · intro hmem
      unfold signupErrors at hmem
      rw [hnull] at hmem
      rcases List.mem_append.mp hmem with h1 | h23
      · rcases checkSignupUserId_chars h1 with hh | hh
        · exact absurd hh (by decide)
        · exact absurd hh (by decide)
      · rcases List.mem_append.mp h23 with h2 | h3
        · rcases checkSignupEmail_chars h2 with hh | hh | ⟨t, hh⟩
          · exact absurd hh (by decide)
          · exact absurd hh (by decide)
          · exact absurd hh.symm (ne_of_not_isPrefixOf t (by decide))
        · simp [checkSignupPlan] at h3
          exact absurd h3 (by decide)

lemma payment_null_field {fs : EventObj} {k : String}
    (hk : k ∈ requiredFields HandlerTag.payment) (hnull : getField fs k = PyVal.none) :
    missingMsg k ∈ paymentErrors fs ∧ wrongTypeMsg HandlerTag.payment k ∉ paymentErrors fs := by
  have hk' : k = "payment_id" ∨ k = "user_id" ∨ k = "amount" ∨ k = "currency" := by
    simpa [requiredFields] using hk
  rcases hk' with rfl | rfl | rfl | rfl
  · refine ⟨?_, ?_⟩
    · unfold paymentErrors
      rw [hnull]
      exact List.mem_append_left _ (by simp [checkPaymentPaymentId])
    · intro hmem
      unfold paymentErrors at hmem
      rw [hnull] at hmem
      rcases List.mem_append.mp hmem with h1 | h234
      · simp [checkPaymentPaymentId] at h1
        exact absurd h1 (by decide)
      · rcases List.mem_append.mp h234 with h2 | h34
        · rcases checkPaymentUserId_chars h2 with hh | hh
          · exact absurd hh (by decide)
          · exact absurd hh (by decide)
        · rcases List.mem_append.mp h34 with h3 | h4
          · rcases checkPaymentAmount_chars h3 with hh | hh | ⟨t, hh⟩
            · exact absurd hh (by decide)
            · exact absurd hh (by decide)
            · exact absurd hh.symm (ne_of_not_isPrefixOf t (by decide))
          · rcases checkPaymentCurrency_chars h4 with hh | hh | ⟨t, hh⟩
            · exact absurd hh (by decide)
            · exact absurd hh (by decide)
            · exact absurd hh.symm (ne_of_not_isPrefixOf t (by decide))
  · refine ⟨?_, ?_⟩
    · unfold paymentErrors
      rw [hnull]
      exact List.mem_append_right _ (List.mem_append_left _ (by simp [checkPaymentUserId]))
    · intro hmem
      unfold paymentErrors at hmem
      rw [hnull] at hmem
      rcases List.mem_append.mp hmem with h1 | h234
      · rcases checkPaymentPaymentId_chars h1 with hh | hh
        · exact absurd hh (by decide)
        · exact absurd hh (by decide)
      · rcases List.mem_append.mp h234 with h2 | h34
        · simp [checkPaymentUserId] at h2
          exact absurd h2 (by decide)
        · rcases List.mem_append.mp h34 with h3 | h4
          · rcases checkPaymentAmount_chars h3 with hh | hh | ⟨t, hh⟩
            · exact absurd hh (by decide)
            · exact absurd hh (by decide)
            · exact absurd hh.symm (ne_of_not_isPrefixOf t (by decide))
          · rcases checkPaymentCurrency_chars h4 with hh | hh | ⟨t, hh⟩
            · exact absurd hh (by decide)
            · exact absurd hh (by decide)
            · exact absurd hh.symm (ne_of_not_isPrefixOf t (by decide))
  · refine ⟨?_, ?_⟩
    · unfold paymentErrors
      rw [hnull]
      exact List.mem_append_right _ (List.mem_append_right _
        (List.mem_append_left _ (by simp [checkPaymentAmount])))
    · intro hmem
      unfold paymentErrors at hmem
      rw [hnull] at hmem
      rcases List.mem_append.mp hmem with h1 | h234
      · rcases checkPaymentPaymentId_chars h1 with hh | hh
        · exact absurd hh (by decide)
        · exact absurd hh (by decide)
      · rcases List.mem_append.mp h234 with h2 | h34
        · rcases checkPaymentUserId_chars h2 with hh | hh
          · exact absurd hh (by decide)
          · exact absurd hh (by decide)
        · rcases List.mem_append.mp h34 with h3 | h4
          · simp [checkPaymentAmount] at h3
            exact absurd h3 (by decide)
          · rcases checkPaymentCurrency_chars h4 with hh | hh | ⟨t, hh⟩
            · exact absurd hh (by decide)
            · exact absurd hh (by decide)
            · exact absurd hh.symm (ne_of_not_isPrefixOf t (by decide))
  · refine ⟨?_, ?_⟩
    · unfold paymentErrors
      rw [hnull]
      exact List.mem_append_right _ (List.mem_append_right _
        (List.mem_append_right _ (by simp [checkPaymentCurrency])))
    · intro hmem
      unfold paymentErrors at hmem
      rw [hnull] at hmem
      rcases List.mem_append.mp hmem with h1 | h234
      · rcases checkPaymentPaymentId_chars h1 with hh | hh
        · exact absurd hh (by decide)
        · exact absurd hh (by decide)
      · rcases List.mem_append.mp h234 with h2 | h34
        · rcases checkPaymentUserId_chars h2 with hh | hh
          · exact absurd hh (by decide)
          · exact absurd hh (by decide)
        · rcases List.mem_append.mp h34 with h3 | h4
          · rcases checkPaymentAmount_chars h3 with hh | hh | ⟨t, hh⟩
            · exact absurd hh (by decide)
            · exact absurd hh (by decide)
            · exact absurd hh.symm (ne_of_not_isPrefixOf t (by decide))
          · simp [checkPaymentCurrency] at h4
            exact absurd h4 (by decide)

lemma upload_null_field {fs : EventObj} {k : String}
    (hk : k ∈ requiredFields HandlerTag.upload) (hnull : getField fs k = PyVal.none) :
    missingMsg k ∈ uploadErrors fs ∧ wrongTypeMsg HandlerTag.upload k ∉ uploadErrors fs := by
  have hk' : k = "file_name" ∨ k = "size_bytes" ∨ k = "bucket" ∨ k = "uploader" := by
    simpa [requiredFields] using hk
  rcases hk' with rfl | rfl | rfl | rfl
  · refine ⟨?_, ?_⟩
    · unfold uploadErrors
      rw [hnull]
      exact List.mem_append_left _ (by simp [checkUploadFileName])
    · intro hmem
      unfold uploadErrors at hmem
      rw [hnull] at hmem
      rcases List.mem_append.mp hmem with h1 | h234
      · simp [checkUploadFileName] at h1
        exact absurd h1 (by decide)
      · rcases List.mem_append.mp h234 with h2 | h34
        · rcases checkUploadSizeBytes_chars h2 with hh | hh | hh
          · exact absurd hh (by decide)
          · exact absurd hh (by decide)
          · exact absurd hh (by decide)
        · rcases List.mem_append.mp h34 with h3 | h4
          · rcases checkUploadBucket_chars h3 with hh | hh
            · exact absurd hh (by decide)
            · exact absurd hh (by decide)
          · rcases checkUploadUploader_chars h4 with hh | hh | ⟨t, hh⟩
            · exact absurd hh (by decide)
            · exact absurd hh (by decide)
            · exact absurd hh.symm (ne_of_not_isPrefixOf t (by decide))
  · refine ⟨?_, ?_⟩
    · unfold uploadErrors
      rw [hnull]
      exact List.mem_append_right _ (List.mem_append_left _ (by simp [checkUploadSizeBytes]))
    · intro hmem
      unfold uploadErrors at hmem
      rw [hnull] at hmem
      rcases List.mem_append.mp hmem with h1 | h234
      · rcases checkUploadFileName_chars h1 with hh | hh
        · exact absurd hh (by decide)
        · exact absurd hh (by decide)
      · rcases List.mem_append.mp h234 with h2 | h34
        · simp [checkUploadSizeBytes] at h2
          exact absurd h2 (by decide)
        · rcases List.mem_append.mp h34 with h3 | h4
          · rcases checkUploadBucket_chars h3 with hh | hh
            · exact absurd hh (by decide)
            · exact absurd hh (by decide)
          · rcases checkUploadUploader_chars h4 with hh | hh | ⟨t, hh⟩
            · exact absurd hh (by decide)
            · exact absurd hh (by decide)
            · exact absurd hh.symm (ne_of_not_isPrefixOf t (by decide))
  · refine ⟨?_, ?_⟩
    · unfold uploadErrors
      rw [hnull]
      exact List.mem_append_right _ (List.mem_append_right _
        (List.mem_append_left _ (by simp [checkUploadBucket])))
    · intro hmem
      unfold uploadErrors at hmem
      rw [hnull] at hmem
      rcases List.mem_append.mp hmem with h1 | h234
      · rcases checkUploadFileName_chars h1 with hh | hh
        · exact absurd hh (by decide)
        · exact absurd hh (by decide)
      · rcases List.mem_append.mp h234 with h2 | h34
        · rcases checkUploadSizeBytes_chars h2 with hh | hh | hh
          · exact absurd hh (by decide)
          · exact absurd hh (by decide)
          · exact absurd hh (by decide)
        · rcases List.mem_append.mp h34 with h3 | h4
          · simp [checkUploadBucket] at h3
            exact absurd h3 (by decide)
          · rcases checkUploadUploader_chars h4 with hh | hh | ⟨t, hh⟩
            · exact absurd hh (by decide)
            · exact absurd hh (by decide)
            · exact absurd hh.symm (ne_of_not_isPrefixOf t (by decide))
  · refine ⟨?_, ?_⟩
    · unfold uploadErrors
      rw [hnull]
      exact List.mem_append_right _ (List.mem_append_right _
        (List.mem_append_right _ (by simp [checkUploadUploader])))
    · intro hmem
      unfold uploadErrors at hmem
      rw [hnull] at hmem
      rcases List.mem_append.mp hmem with h1 | h234
      · rcases checkUploadFileName_chars h1 with hh | hh
        · exact absurd hh (by decide)
        · exact absurd hh (by decide)
      · rcases List.mem_append.mp h234 with h2 | h34
        · rcases checkUploadSizeBytes_chars h2 with hh | hh | hh
          · exact absurd hh (by decide)
          · exact absurd hh (by decide)
          · exact absurd hh (by decide)
        · rcases List.mem_append.mp h34 with h3 | h4
          · rcases checkUploadBucket_chars h3 with hh | hh
            · exact absurd hh (by decide)
            · exact absurd hh (by decide)
          · simp [checkUploadUploader] at h4
            exact absurd h4 (by decide)

/-- C10: in every handler, a required field bound to a null value behaves
exactly like an absent field: the reported error is the missing-field
message, never the wrong-type message, and the Result is identical to the
one for the event with the field removed. -/
theorem c10_null_is_missing (tag : HandlerTag) (fs : EventObj) (k : String)
    (hk : k ∈ requiredFields tag) (hnull : getField fs k = PyVal.none) :
    missingMsg k ∈ (runHandler tag fs).errors ∧
    wrongTypeMsg tag k ∉ (runHandler tag fs).errors ∧
    runHandler tag fs = runHandler tag (eraseKey k fs) := by
  have hext : ∀ key, getField fs key = getField (eraseKey k fs) key := by
    intro key
    by_cases hkey : key = k
    · subst hkey
      rw [hnull, getField_eraseKey_self]
    · rw [getField_eraseKey_ne hkey]
  cases tag with
  | signup =>
      obtain ⟨h1, h2⟩ := signup_null_field hk hnull
      refine ⟨?_, ?_, signup_getField_ext hext⟩
      · rw [show runHandler HandlerTag.signup fs = handle_user_signup fs from rfl,
          handle_user_signup_errors]
        exact h1
      · rw [show runHandler HandlerTag.signup fs = handle_user_signup fs from rfl,
          handle_user_signup_errors]
        exact h2
  | payment =>
      obtain ⟨h1, h2⟩ := payment_null_field hk hnull
      refine ⟨?_, ?_, payment_getField_ext hext⟩
      · rw [show runHandler HandlerTag.payment fs = handle_payment fs from rfl,
          handle_payment_errors]
        exact h1
      · rw [show runHandler HandlerTag.payment fs = handle_payment fs from rfl,
          handle_payment_errors]
        exact h2
  | upload =>
      obtain ⟨h1, h2⟩ := upload_null_field hk hnull
      refine ⟨?_, ?_, upload_getField_ext hext⟩
      · rw [show runHandler HandlerTag.upload fs = handle_file_upload fs from rfl,
          handle_file_upload_errors]
        exact h1
      · rw [show runHandler HandlerTag.upload fs = handle_file_upload fs from rfl,
          handle_file_upload_errors]
        exact h2

/-- Witness for C10: a null-valued `user_id` in a signup event. -/
theorem c10_null_is_missing_witness :
    "user_id" ∈ requiredFields HandlerTag.signup ∧
    getField [("user_id", PyVal.none)] "user_id" = PyVal.none ∧
    (missingMsg "user_id" ∈
        (runHandler HandlerTag.signup [("user_id", PyVal.none)]).errors ∧
      wrongTypeMsg HandlerTag.signup "user_id" ∉
        (runHandler HandlerTag.signup [("user_id", PyVal.none)]).errors ∧
      runHandler HandlerTag.signup [("user_id", PyVal.none)] =
        runHandler HandlerTag.signup (eraseKey "user_id" [("user_id", PyVal.none)])) :=
  ⟨by decide, rfl,
   c10_null_is_missing HandlerTag.signup [("user_id", PyVal.none)] "user_id" (by decide) rfl⟩

lemma dropWhile_head_false (p : Char → Bool) (cs : List Char) {x : Char} {r : List Char}
    (h : cs.dropWhile p = x :: r) : p x = false := by
  induction cs with
  | nil => simp [List.dropWhile] at h
  | cons a t ih =>
      rw [List.dropWhile_cons] at h
      by_cases hp : p a = true
      · rw [if_pos hp] at h
        exact ih h
      · rw [if_neg hp] at h
        cases h
        simpa using hp

lemma takeWhile_append_stop (p : Char → Bool) (a : List Char) (x : Char) (r : List Char)
    (ha : ∀ y ∈ a, p y = true) (hx : p x = false) :
    (a ++ x :: r).takeWhile p = a ∧ (a ++ x :: r).dropWhile p = x :: r := by
  induction a with
  | nil =>
      constructor
      · simp [List.takeWhile_cons, hx]
      · simp [List.dropWhile_cons, hx]
  | cons y ys ih =>
      have hy : p y = true := ha y (by simp)
      have ih' := ih fun z hz => ha z (by simp [hz])
      constructor
      · simp [List.takeWhile_cons, hy, ih'.1]
      · simp [List.dropWhile_cons, hy, ih'.2]

lemma emailChar_notAt {ch : Char} (h : emailChar ch = true) : notAt ch = true := by
  simp only [emailChar, Bool.and_eq_true, Bool.not_eq_true', decide_eq_false_iff_not] at h
  simpa [notAt] using h.1

lemma matchEmailCore_iff (cs : List Char) : matchEmailCore cs = true ↔ EmailPat cs := by
  constructor
  · intro h
    unfold matchEmailCore at h
    cases hd : cs.dropWhile notAt with
    | nil => rw [hd] at h; cases h
    | cons at0 dom =>
        rw [hd] at h
        simp only [Bool.and_eq_true, decide_eq_true_iff] at h
        obtain ⟨⟨⟨hne, hlocE⟩, hdomE⟩, hdot⟩ := h
        have hat : at0 = '@' := by
          have := dropWhile_head_false notAt cs hd
          simpa [notAt] using this
        subst hat
        have hsplit : cs.takeWhile notAt ++ '@' :: dom = cs := by
          rw [← hd]
          exact List.takeWhile_append_dropWhile notAt cs
        have hdot' : '.' ∈ dom.tail.dropLast := by simpa [hasInnerDot] using hdot
        cases dom with
        | nil => simp at hdot'
        | cons d0 rest =>
            have hdot2 : '.' ∈ rest.dropLast := hdot'
            have hrest_ne : rest ≠ [] := by
              intro h0
              rw [h0] at hdot2
              simp at hdot2
            obtain ⟨u, v, huv⟩ := List.append_of_mem hdot2
            have hrest : rest = u ++ '.' :: (v ++ [rest.getLast hrest_ne]) := by
              conv_lhs => rw [← List.dropLast_append_getLast hrest_ne]
              rw [huv]
              simp
            obtain ⟨g, hg⟩ : ∃ g, rest = u ++ '.' :: (v ++ [g]) :=
              ⟨rest.getLast hrest_ne, hrest⟩
            refine ⟨cs.takeWhile notAt, d0 :: u, v ++ [g],
              hne, by simp, by simp, ?_, ?_, ?_, ?_⟩
            · exact fun ch hch => List.all_eq_true.mp hlocE ch hch
            · intro ch hch
              refine List.all_eq_true.mp hdomE ch ?_
              rcases List.mem_cons.mp hch with rfl | hch'
              · exact List.mem_cons_self _ _
              · refine List.mem_cons_of_mem _ ?_
                rw [hg]
                exact List.mem_append_left _ hch'
            · intro ch hch
              refine List.all_eq_true.mp hdomE ch ?_
              refine List.mem_cons_of_mem _ ?_
              rw [hg]
              exact List.mem_append_right _ (List.mem_cons_of_mem _ hch)
            · rw [show (d0 :: u : List Char) ++ '.' :: (v ++ [g]) = d0 :: rest from by
                rw [hg]
                rfl]
              exact hsplit.symm
  · rintro ⟨a, b, c, ha, hb, hc, haE, hbE, hcE, rfl⟩
    have hall : ∀ y ∈ a, notAt y = true := fun y hy => emailChar_notAt (haE y hy)
    obtain ⟨htake, hdrop⟩ :=
      takeWhile_append_stop notAt a '@' (b ++ '.' :: c) hall (by decide)
    unfold matchEmailCore
    rw [hdrop, htake]
    simp only [Bool.and_eq_true, decide_eq_true_iff]
    refine ⟨⟨⟨ha, List.all_eq_true.mpr haE⟩, ?_⟩, ?_⟩
    · refine List.all_eq_true.mpr fun x hx => ?_
      rcases List.mem_append.mp hx with hxb | hxc
      · exact hbE x hxb
      · rcases List.mem_cons.mp hxc with rfl | hxc'
        · decide
        · exact hcE x hxc'
    · cases b with
      | nil => exact absurd rfl hb
      | cons b0 bs =>
          simp only [hasInnerDot, decide_eq_true_iff, List.cons_append, List.tail_cons]
          rw [List.dropLast_append_of_ne_nil bs (show ('.' :: c : List Char) ≠ [] by simp),
            List.dropLast_cons_of_ne_nil hc]
          exact List.mem_append_right _ (List.mem_cons_self _ _)

lemma emailPat_getLast {cs : List Char} (h : EmailPat cs) :
    ∃ x, cs.getLast? = some x ∧ emailChar x = true := by
  obtain ⟨a, b, c, ha, hb, hc, haE, hbE, hcE, rfl⟩ := h
  refine ⟨c.getLast hc, ?_, hcE _ (List.getLast_mem hc)⟩
  have hre : a ++ '@' :: (b ++ '.' :: c) = (a ++ '@' :: b ++ ['.']) ++ c := by simp
  rw [hre, List.getLast?_append, List.getLast?_eq_getLast c hc]
  rfl

/-- Counterexample for C4: the code's validator accepts `"a@b.c\n"` although
the anchored pattern of the claim (no trailing newline allowed) does not
match it. -/
theorem c4_email_pattern_counterexample :
    _is_email "a@b.c\n" = true ∧ ¬ EmailPat ("a@b.c\n".data) := by
  refine ⟨by decide, fun h => ?_⟩
  obtain ⟨x, hx, hchar⟩ := emailPat_getLast h
  have hx2 : some x = some '\n' := hx.symm.trans rfl
  obtain rfl : x = '\n' := by injection hx2
  exact absurd hchar (by decide)

/-- C4 (amended): the email validator accepts `s` iff `s` matches
"nonempty run of non-whitespace non-`'@'` characters, `'@'`, nonempty such
run, `'.'`, nonempty such run" anchored at the start, with the end anchor
matching either at the very end of the string or just before a newline that
is the string's last character (Python `$` semantics); i.e. iff `s`, or `s`
with a single trailing newline removed, matches the fully anchored pattern. -/
theorem c4_email_pattern (s : String) :
    _is_email s = true ↔
      (EmailPat s.data ∨ (s.data.getLast? = some '\n' ∧ EmailPat s.data.dropLast)) := by
  unfold _is_email
  simp only [Bool.or_eq_true, Bool.and_eq_true, decide_eq_true_iff, matchEmailCore_iff]

end Handler
